import Mathlib

/-!
# Verification of the camera-dashboard capture core

Shallow embedding of the Go sources of `learn_go_cam_dashboard`:

* `FrameBuffer` (latest-frame surface) from `internal/ui/nightmode.go`
  (second document, package `camera`);
* the bounded restart policy `restartCaptureIfStale` from
  `internal/ui/app.go`;
* `CaptureWorker.SetFPS` and the framing-loop decimation of
  `tryFFmpegCapture`, and the EOI phase of `readMJPEGFrameRaw`, from
  `internal/camera/capture.go` / `unnamed/part_005`;
* the `SmartController` thermal state machine from `internal/perf/adaptive.go`;
* the capability probe `queryCameraCapabilities` / `getOptimalFPS` from
  `unnamed/part_007`;
* `KillDeviceHoldersWithGrace` from `internal/helpers/kill_device_holders.go`.

Go machine integers are modelled as `Int`/`Nat` (the counters involved are
far from their wrap-around points), `time.Time`/`time.Duration` as `Int`
nanoseconds with the zero time as `Option.none` where `IsZero` is consulted,
`float64` temperatures and loads as `ℚ`, and byte streams as `List ℕ`.
-/

namespace CamDash

/-! ## Latest-frame surface (`FrameBuffer`, nightmode.go second document)

The Go struct holds two frame slots (`frames [2]image.Image`), an atomic
`writeIndex`/`readIndex`, a `frameCount` counter, the `lastFrameAt`
timestamp and a `droppedCount`.  A nil `image.Image` is `Option.none`.
All claims about the surface are sequential (single writer), so the atomics
become plain record fields.
-/

structure FrameBuffer (α : Type) where
  frames : Fin 2 → Option α
  writeIndex : Fin 2
  readIndex : Fin 2
  frameCount : Nat
  lastFrameAt : Int
  droppedCount : Nat
  captureStartTime : Int

/-- `NewFrameBuffer`: write index 0, read index 1, zero-valued stats,
nil frames (Go zero values). -/
def newFrameBuffer (α : Type) (now : Int) : FrameBuffer α :=
  { frames := fun _ => none
    writeIndex := 0
    readIndex := 1
    frameCount := 0
    lastFrameAt := 0
    droppedCount := 0
    captureStartTime := now }

namespace FrameBuffer

variable {α : Type}

/-- `FrameBuffer.Write`: store into the write slot, swap the indices,
bump `frameCount`, stamp `lastFrameAt`. -/
def Write (fb : FrameBuffer α) (frame : α) (now : Int) : FrameBuffer α :=
  let writeIdx := fb.writeIndex
  { fb with
    frames := Function.update fb.frames writeIdx (some frame)
    writeIndex := 1 - writeIdx
    readIndex := writeIdx
    frameCount := fb.frameCount + 1
    lastFrameAt := now }

/-- `FrameBuffer.Read`: the frame behind the read index (nil if none yet). -/
def Read (fb : FrameBuffer α) : Option α :=
  fb.frames fb.readIndex

/-- `FrameBuffer.ReadIfNew`: return the current frame only when
`frameCount` exceeds the reader's `lastRead`. -/
def ReadIfNew (fb : FrameBuffer α) (lastRead : Nat) : Option α × Nat × Bool :=
  if fb.frameCount ≤ lastRead then (none, lastRead, false)
  else (fb.frames fb.readIndex, fb.frameCount, true)

/-- `FrameBuffer.GetFrameCount`. -/
def GetFrameCount (fb : FrameBuffer α) : Nat :=
  fb.frameCount

/-- `FrameBuffer.MarkDropped`. -/
def MarkDropped (fb : FrameBuffer α) : FrameBuffer α :=
  { fb with droppedCount := fb.droppedCount + 1 }

/-- `FrameBuffer.Reset`: clears both slots and all stats, including
`frameCount`, and restamps `captureStartTime`. -/
def Reset (fb : FrameBuffer α) (now : Int) : FrameBuffer α :=
  { fb with
    frames := fun _ => none
    frameCount := 0
    droppedCount := 0
    lastFrameAt := 0
    captureStartTime := now }

end FrameBuffer

/-- One operation of the surface's public interface, by its effect on the
state (`Read`/`ReadIfNew`/`GetFrameCount` are pure observations). -/
inductive FBOp (α : Type) where
  | write (frame : α) (now : Int)
  | read
  | readIfNew (lastRead : Nat)
  | markDropped
  | reset (now : Int)

/-- Whether an operation is `Reset`. -/
def FBOp.isReset {α : Type} : FBOp α → Bool
  | .reset _ => true
  | _ => false

/-- Apply one public operation to the surface state. -/
def applyFBOp {α : Type} (fb : FrameBuffer α) : FBOp α → FrameBuffer α
  | .write f now => fb.Write f now
  | .read => fb
  | .readIfNew _ => fb
  | .markDropped => fb.MarkDropped
  | .reset now => fb.Reset now

/-- Apply a sequence of public operations. -/
def applyFBOps {α : Type} (fb : FrameBuffer α) (ops : List (FBOp α)) : FrameBuffer α :=
  ops.foldl applyFBOp fb

lemma applyFBOp_frameCount_le {α : Type} (fb : FrameBuffer α) (op : FBOp α)
    (h : op.isReset = false) : fb.frameCount ≤ (applyFBOp fb op).frameCount := by
  cases op with
  | write f now => exact Nat.le_succ _
  | read => exact le_rfl
  | readIfNew _ => exact le_rfl
  | markDropped => exact le_rfl
  | reset now => simp [FBOp.isReset] at h

/-- C10 — a fresh surface serves no frame: `Read` is nil and `ReadIfNew`
reports not-new for every `lastSeen`, since the sequence count is 0. -/
theorem fresh_buffer_reads_nothing (α : Type) (now : Int) (lastSeen : Nat) :
    (newFrameBuffer α now).Read = none ∧
    (newFrameBuffer α now).ReadIfNew lastSeen = (none, lastSeen, false) := by
  constructor
  · rfl
  · simp [FrameBuffer.ReadIfNew, newFrameBuffer]

/-- C3 — after `Write f`, the read index designates the slot `f` went into,
that slot holds `f`, and `ReadIfNew lastSeen` with `lastSeen` below the new
sequence count returns exactly `f`, the new count, and `true`. -/
theorem write_then_readIfNew_returns_frame {α : Type}
    (fb : FrameBuffer α) (f : α) (now : Int) (lastSeen : Nat)
    (h : lastSeen < fb.frameCount + 1) :
    (fb.Write f now).readIndex = fb.writeIndex ∧
    (fb.Write f now).frames ((fb.Write f now).readIndex) = some f ∧
    (fb.Write f now).ReadIfNew lastSeen = (some f, fb.frameCount + 1, true) := by
  refine ⟨rfl, ?_, ?_⟩
  · simp [FrameBuffer.Write]
  · simp [FrameBuffer.ReadIfNew, FrameBuffer.Write, Nat.not_le.mpr h]

theorem write_then_readIfNew_returns_frame_witness :
    (0 : Nat) < (newFrameBuffer Nat 0).frameCount + 1 ∧
    ((newFrameBuffer Nat 0).Write 42 1).ReadIfNew 0 =
      (some 42, (newFrameBuffer Nat 0).frameCount + 1, true) :=
  ⟨by decide,
   (write_then_readIfNew_returns_frame (newFrameBuffer Nat 0) 42 1 0 (by decide)).2.2⟩

/-- C2 (counterexample) — the claim quantifies over every operation of the
public interface, but `Reset` drops the observed `frameCount` from 1 back
to 0: a later observation is smaller than an earlier one. -/
theorem frameCount_decreases_after_reset :
    (((newFrameBuffer Nat 0).Write 42 1).Reset 2).GetFrameCount
      < ((newFrameBuffer Nat 0).Write 42 1).GetFrameCount := by
  decide

/-- C2 (amended) — over any sequence of public operations that does not
contain `Reset`, the sequence counter `frameCount` is non-decreasing. -/
theorem frameCount_monotone_without_reset {α : Type}
    (fb : FrameBuffer α) (ops : List (FBOp α))
    (h : ∀ op ∈ ops, op.isReset = false) :
    fb.GetFrameCount ≤ (applyFBOps fb ops).GetFrameCount := by
  induction ops generalizing fb with
  | nil => exact le_rfl
  | cons op rest ih =>
      have h1 : op.isReset = false := h op (List.mem_cons_self op rest)
      have h2 : ∀ o ∈ rest, o.isReset = false := fun o ho => h o (List.mem_cons_of_mem _ ho)
      exact le_trans (applyFBOp_frameCount_le fb op h1) (ih (applyFBOp fb op) h2)

theorem frameCount_monotone_without_reset_witness :
    (∀ op ∈ ([FBOp.write 7 0, FBOp.markDropped, FBOp.read] : List (FBOp Nat)),
      op.isReset = false) ∧
    (newFrameBuffer Nat 0).GetFrameCount ≤
      (applyFBOps (newFrameBuffer Nat 0) [FBOp.write 7 0, FBOp.markDropped, FBOp.read]).GetFrameCount :=
  ⟨by decide,
   frameCount_monotone_without_reset (newFrameBuffer Nat 0)
     [FBOp.write 7 0, FBOp.markDropped, FBOp.read] (by decide)⟩

/-! ## Bounded restart policy (`App.restartCaptureIfStale`, app.go)

Per-slot accounting: `restartEvents` (restart timestamps), `lastRestartTime`
(`none` models the zero `time.Time`) and the `restartLimitHit` flag.  Times
and durations are `Int` nanoseconds; `cooldown`, `window` are the configured
`restart_cooldown_sec` / `restart_window_sec` converted to durations, and
`maxRestarts` is `max_restarts_per_window`.
-/

structure RestartState where
  events : List Int
  lastRestart : Option Int
  limitHit : Bool

def initRestartState : RestartState :=
  { events := [], lastRestart := none, limitHit := false }

/-- `!t.IsZero() && now.Sub(t) < gap`, with the zero `time.Time` as `none`. -/
def isWithin (t : Option Int) (now gap : Int) : Bool :=
  match t with
  | none => false
  | some l => decide (now - l < gap)

/-- `recentCount`: number of recorded restart timestamps with
`now.Sub(t) <= window`. -/
def countRecent (window : Int) (events : List Int) (now : Int) : Int :=
  ((events.filter fun t => decide (now - t ≤ window)).length : Int)

/-- The tail of `restartCaptureIfStale` once a restart is admitted: append
`now` to the events, set `lastRestartTime`, then retain only timestamps
within `window*2`. -/
def recordRestart (window : Int) (s : RestartState) (now : Int) :
    RestartState × Bool :=
  let events := s.events ++ [now]
  let filtered := events.filter fun t => decide (now - t ≤ 2 * window)
  ({ events := filtered, lastRestart := some now, limitHit := s.limitHit }, true)

/-- One call of `restartCaptureIfStale` for one camera slot, as a transition
on that slot's restart accounting.  The second component reports whether the
restart was actually performed. -/
def restartStep (cooldown window maxRestarts : Int) (s : RestartState) (now : Int) :
    RestartState × Bool :=
  if isWithin s.lastRestart now cooldown then (s, false)
  else if maxRestarts ≤ countRecent window s.events now then
    if isWithin s.lastRestart now (2 * window) then
      ({ s with limitHit := true }, false)
    else
      recordRestart window { s with events := [], limitHit := false } now
  else recordRestart window s now

/-- Run the policy over a sequence of call times, collecting the times at
which a restart was actually performed. -/
def runRestarts (cooldown window maxRestarts : Int) (s : RestartState) :
    List Int → List Int
  | [] => []
  | t :: rest =>
      match restartStep cooldown window maxRestarts s t with
      | (s', true) => t :: runRestarts cooldown window maxRestarts s' rest
      | (s', false) => runRestarts cooldown window maxRestarts s' rest

/-- The policy from the initial (never-restarted) accounting. -/
def policyRestarts (cooldown window maxRestarts : Int) (ts : List Int) : List Int :=
  runRestarts cooldown window maxRestarts initRestartState ts

/-- All performed restarts are bounded by the recorded last restart time
(`none` = the zero time, possible only when nothing was performed). -/
def lastBound : Option Int → List Int → Prop
  | none, perf => perf = []
  | some L, perf => ∀ e ∈ perf, e ≤ L

/-- Relation between the accounting state and the history `perf` of restarts
actually performed, as of time `τ` (the next call happens no earlier than
`τ`): the performed times are strictly increasing, all bounded by the
recorded last restart, and every performed restart still strictly inside the
`2*window` retention horizon is present in the recorded events. -/
def RestartInv (window : Int) (s : RestartState) (perf : List Int) (τ : Int) : Prop :=
  perf.Pairwise (· < ·) ∧
  lastBound s.lastRestart perf ∧
  (∀ e ∈ perf, τ - e < 2 * window → e ∈ s.events)

/-- At each performed restart, strictly fewer than `maxRestarts` of the
earlier performed restarts lie within `window` of it. -/
def WindowSafe (window maxRestarts : Int) (perf : List Int) : Prop :=
  ∀ l₁ t l₂, perf = l₁ ++ t :: l₂ →
    ((l₁.filter fun e => decide (t - e ≤ window)).length : Int) < maxRestarts

lemma restartInv_mono {window : Int} {s : RestartState} {perf : List Int}
    {τ τ' : Int} (h : RestartInv window s perf τ) (hle : τ ≤ τ') :
    RestartInv window s perf τ' := by
  obtain ⟨h1, h2, h3⟩ := h
  refine ⟨h1, h2, fun e he hlt => h3 e he ?_⟩
  have : τ - e ≤ τ' - e := by omega
  omega

lemma length_filter_mono {α : Type} (l : List α) (p q : α → Bool)
    (h : ∀ a ∈ l, p a = true → q a = true) :
    (l.filter p).length ≤ (l.filter q).length := by
  induction l with
  | nil => simp
  | cons x tl ih =>
      have htl : ∀ a ∈ tl, p a = true → q a = true :=
        fun a ha => h a (List.mem_cons_of_mem _ ha)
      by_cases hp : p x = true
      · have hq : q x = true := h x (List.mem_cons_self x tl) hp
        simp only [List.filter_cons, hp, hq, if_pos, List.length_cons]
        exact Nat.succ_le_succ (ih htl)
      · simp only [List.filter_cons, hp]
        by_cases hq : q x = true
        · simp only [hq, if_pos, List.length_cons]
          exact Nat.le_succ_of_le (ih htl)
        · simp only [Bool.not_eq_true] at hq
          simp only [hq]
          exact ih htl

lemma length_filter_le_of_subset {α : Type} [DecidableEq α]
    (l₁ l₂ : List α) (p : α → Bool) (h₁ : l₁.Nodup)
    (h : ∀ e ∈ l₁, p e = true → e ∈ l₂) :
    (l₁.filter p).length ≤ (l₂.filter p).length := by
  have hnd : (l₁.filter p).Nodup := h₁.filter p
  have hsub : l₁.filter p ⊆ l₂.filter p := by
    intro x hx
    rw [List.mem_filter] at hx ⊢
    exact ⟨h x hx.1 hx.2, hx.2⟩
  exact (hnd.subperm hsub).length_le

lemma append_singleton_decomp {α : Type} {l l₁ l₂ : List α} {t x : α}
    (h : l ++ [t] = l₁ ++ x :: l₂) :
    (l₂ = [] ∧ l₁ = l ∧ x = t) ∨ (∃ l₂', l₂ = l₂' ++ [t] ∧ l = l₁ ++ x :: l₂') := by
  rcases List.eq_nil_or_concat l₂ with h2 | ⟨l₂', y, rfl⟩
  · subst h2
    have hlen : ([t] : List α).length = ([x] : List α).length := rfl
    have := List.append_inj' h hlen
    obtain ⟨hl, hx⟩ := this
    exact Or.inl ⟨rfl, hl.symm, (List.singleton_injective hx).symm⟩
  · have h' : l ++ [t] = (l₁ ++ x :: l₂') ++ [y] := by
      rw [h]; simp
    have hlen : ([t] : List α).length = ([y] : List α).length := rfl
    obtain ⟨hl, hy⟩ := List.append_inj' h' hlen
    refine Or.inr ⟨l₂', ?_, hl⟩
    rw [List.singleton_injective hy]
    exact List.concat_eq_append l₂' y

lemma windowSafe_nil {window maxRestarts : Int} : WindowSafe window maxRestarts [] := by
  intro l₁ t l₂ h
  exact absurd h.symm (by simp)

lemma windowSafe_of_append {window maxRestarts : Int} {l : List Int} {t : Int}
    (h : WindowSafe window maxRestarts (l ++ [t])) : WindowSafe window maxRestarts l := by
  intro l₁ x l₂ hl
  exact h l₁ x (l₂ ++ [t]) (by rw [hl]; simp)

lemma windowSafe_append {window maxRestarts : Int} {perf : List Int} {now : Int}
    (hsafe : WindowSafe window maxRestarts perf)
    (hnew : ((perf.filter fun e => decide (now - e ≤ window)).length : Int) < maxRestarts) :
    WindowSafe window maxRestarts (perf ++ [now]) := by
  intro l₁ x l₂ h
  rcases append_singleton_decomp h with ⟨_, hl₁, hx⟩ | ⟨l₂', _, hl⟩
  · subst hl₁; subst hx; exact hnew
  · exact hsafe l₁ x l₂' hl

/-- `WindowSafe` implies the claimed sliding-window bound: any closed window
`[lo, lo + window]` contains at most `maxRestarts` performed restarts. -/
lemma windowSafe_count {window maxRestarts : Int}
    (hw : 0 < window) (hm : 1 ≤ maxRestarts) :
    ∀ (perf : List Int), WindowSafe window maxRestarts perf →
      ∀ lo : Int,
        ((perf.filter fun e => decide (lo ≤ e ∧ e ≤ lo + window)).length : Int) ≤ maxRestarts := by
  intro perf
  induction perf using List.reverseRecOn with
  | nil => intro _ lo; simp; omega
  | append_singleton l t ih =>
      intro hsafe lo
      have hsl : WindowSafe window maxRestarts l := windowSafe_of_append hsafe
      have hfl : (l ++ [t]).filter (fun e => decide (lo ≤ e ∧ e ≤ lo + window)) =
          l.filter (fun e => decide (lo ≤ e ∧ e ≤ lo + window)) ++
            [t].filter (fun e => decide (lo ≤ e ∧ e ≤ lo + window)) :=
        List.filter_append _ _
      by_cases ht : lo ≤ t ∧ t ≤ lo + window
      · have hcnt := hsafe l t [] rfl
        have hmono : (l.filter fun e => decide (lo ≤ e ∧ e ≤ lo + window)).length ≤
            (l.filter fun e => decide (t - e ≤ window)).length := by
          apply length_filter_mono
          intro e _ he
          rw [decide_eq_true_eq] at he ⊢
          omega
        have h1 : List.filter (fun e => decide (lo ≤ e ∧ e ≤ lo + window)) [t] = [t] := by
          simp [ht.1, ht.2]
        rw [hfl, h1, List.length_append, List.length_singleton]
        push_cast
        push_cast at hcnt
        omega
      · have h0 : List.filter (fun e => decide (lo ≤ e ∧ e ≤ lo + window)) [t] = [] := by
          simp [ht]
        rw [hfl, h0, List.append_nil]
        exact ih hsl lo

lemma restartStep_false_state {c w m : Int} {s s' : RestartState} {now : Int}
    (h : restartStep c w m s now = (s', false)) :
    s'.events = s.events ∧ s'.lastRestart = s.lastRestart := by
  unfold restartStep at h
  split at h
  · injection h with h1 _
    subst h1
    exact ⟨rfl, rfl⟩
  · split at h
    · split at h
      · injection h with h1 _
        subst h1
        exact ⟨rfl, rfl⟩
      · simp only [recordRestart] at h
        injection h with _ h2
        exact absurd h2 (by simp)
    · simp only [recordRestart] at h
      injection h with _ h2
      exact absurd h2 (by simp)

lemma recordRestart_inv {w : Int} (hw : 0 < w) {s1 : RestartState}
    {perf : List Int} {now : Int}
    (hPW : perf.Pairwise (· < ·))
    (hlt : ∀ e ∈ perf, e < now)
    (hEv : ∀ e ∈ perf, now - e < 2 * w → e ∈ s1.events) :
    RestartInv w (recordRestart w s1 now).1 (perf ++ [now]) now := by
  refine ⟨?_, ?_, ?_⟩
  · rw [List.pairwise_append]
    refine ⟨hPW, by simp, ?_⟩
    intro a ha b hb
    rw [List.mem_singleton] at hb
    subst hb
    exact hlt a ha
  · simp only [recordRestart, lastBound]
    intro e he
    rcases List.mem_append.mp he with h | h
    · exact le_of_lt (hlt e h)
    · rw [List.mem_singleton] at h
      omega
  · intro e he hrec
    simp only [recordRestart]
    rw [List.mem_filter]
    rcases List.mem_append.mp he with h | h
    · refine ⟨List.mem_append.mpr (Or.inl (hEv e h hrec)), ?_⟩
      rw [decide_eq_true_eq]
      omega
    · rw [List.mem_singleton] at h
      subst h
      refine ⟨List.mem_append.mpr (Or.inr (List.mem_singleton.mpr rfl)), ?_⟩
      rw [decide_eq_true_eq]
      omega

lemma restartStep_perform {c w m : Int} {s s' : RestartState}
    {perf : List Int} {now : Int}
    (hc : 0 < c) (hw : 0 < w) (hm : 1 ≤ m)
    (hInv : RestartInv w s perf now)
    (hstep : restartStep c w m s now = (s', true)) :
    RestartInv w s' (perf ++ [now]) now ∧
    ((perf.filter fun e => decide (now - e ≤ w)).length : Int) < m := by
  obtain ⟨hPW, hLast, hEv⟩ := hInv
  unfold restartStep at hstep
  by_cases hcd : isWithin s.lastRestart now c = true
  · rw [if_pos hcd] at hstep
    injection hstep with _ hb
    exact absurd hb (by simp)
  rw [if_neg hcd] at hstep
  have hlt_now : ∀ e ∈ perf, e < now := by
    intro e he
    cases hLR : s.lastRestart with
    | none =>
        rw [hLR] at hLast
        simp only [lastBound] at hLast
        rw [hLast] at he
        cases he
    | some L =>
        rw [hLR] at hLast
        simp only [lastBound] at hLast
        have h1 : ¬ (now - L < c) := by
          simpa [isWithin, hLR] using hcd
        have h2 := hLast e he
        omega
  by_cases hcnt : m ≤ countRecent w s.events now
  · rw [if_pos hcnt] at hstep
    by_cases hext : isWithin s.lastRestart now (2 * w) = true
    · rw [if_pos hext] at hstep
      injection hstep with _ hb
      exact absurd hb (by simp)
    rw [if_neg hext] at hstep
    -- extended cooldown has passed: every earlier restart is ≥ 2*window old
    have hold : ∀ e ∈ perf, 2 * w ≤ now - e := by
      intro e he
      cases hLR : s.lastRestart with
      | none =>
          rw [hLR] at hLast
          simp only [lastBound] at hLast
          rw [hLast] at he
          cases he
      | some L =>
          rw [hLR] at hLast
          simp only [lastBound] at hLast
          have h1 : ¬ (now - L < 2 * w) := by
            simpa [isWithin, hLR] using hext
          have h2 := hLast e he
          omega
    have hs' : (recordRestart w { s with events := [], limitHit := false } now).1 = s' :=
      congrArg Prod.fst hstep
    constructor
    · rw [← hs']
      refine recordRestart_inv hw hPW hlt_now ?_
      intro e he hrec
      exact absurd (hold e he) (by omega)
    · have hempty : perf.filter (fun e => decide (now - e ≤ w)) = [] := by
        rw [List.filter_eq_nil_iff]
        intro a ha
        have := hold a ha
        simp only [decide_eq_true_eq]
        omega
      rw [hempty]
      simpa using hm
  · rw [if_neg hcnt] at hstep
    have hs' : (recordRestart w s now).1 = s' := congrArg Prod.fst hstep
    constructor
    · rw [← hs']
      refine recordRestart_inv hw hPW hlt_now ?_
      intro e he hrec
      exact hEv e he hrec
    · have hnd : perf.Nodup := hPW.imp (fun h => ne_of_lt h)
      have hsub : (perf.filter fun e => decide (now - e ≤ w)).length ≤
          (s.events.filter fun e => decide (now - e ≤ w)).length := by
        apply length_filter_le_of_subset _ _ _ hnd
        intro e he hp
        rw [decide_eq_true_eq] at hp
        exact hEv e he (by omega)
      have hcnt' : countRecent w s.events now < m := by omega
      unfold countRecent at hcnt'
      omega

lemma runRestarts_safe {c w m : Int} (hc : 0 < c) (hw : 0 < w) (hm : 1 ≤ m) :
    ∀ (ts : List Int) (s : RestartState) (perf : List Int) (τ : Int),
      RestartInv w s perf τ → WindowSafe w m perf →
      ts.Pairwise (· ≤ ·) → (∀ t ∈ ts, τ ≤ t) →
      WindowSafe w m (perf ++ runRestarts c w m s ts) := by
  intro ts
  induction ts with
  | nil =>
      intro s perf τ _ hsafe _ _
      simpa [runRestarts] using hsafe
  | cons t rest ih =>
      intro s perf τ hInv hsafe hpw hall
      have hτt : τ ≤ t := hall t (List.mem_cons_self _ _)
      have hInvt := restartInv_mono hInv hτt
      have hpw' : rest.Pairwise (· ≤ ·) := (List.pairwise_cons.mp hpw).2
      have hget : ∀ x ∈ rest, t ≤ x := (List.pairwise_cons.mp hpw).1
      cases hstep : restartStep c w m s t with
      | mk s' b =>
        cases b with
        | false =>
            have hrun : runRestarts c w m s (t :: rest) = runRestarts c w m s' rest := by
              simp [runRestarts, hstep]
            rw [hrun]
            have hpres := restartStep_false_state hstep
            have hInv' : RestartInv w s' perf t := by
              obtain ⟨h1, h2, h3⟩ := hInvt
              refine ⟨h1, ?_, ?_⟩
              · rw [hpres.2]
                exact h2
              · intro e he hl
                rw [hpres.1]
                exact h3 e he hl
            exact ih s' perf t hInv' hsafe hpw' hget
        | true =>
            have hrun : runRestarts c w m s (t :: rest) = t :: runRestarts c w m s' rest := by
              simp [runRestarts, hstep]
            rw [hrun]
            obtain ⟨hInv', hnew⟩ := restartStep_perform hc hw hm hInvt hstep
            have hsafe' := windowSafe_append hsafe hnew
            have hassoc : perf ++ t :: runRestarts c w m s' rest =
                (perf ++ [t]) ++ runRestarts c w m s' rest := by simp
            rw [hassoc]
            exact ih s' (perf ++ [t]) t hInv' hsafe' hpw' hget

/-- C1 — bounded restart policy. With a positive cooldown, a positive
window and a restart cap of at least one (the configuration loader clamps
`restart_cooldown_sec ≥ 1`, `restart_window_sec ≥ 5`,
`max_restarts_per_window ≥ 1`), over any monotone sequence of call times:
(1) any closed time window of length `window` contains at most `maxRestarts`
restarts actually performed; (2) a call is rejected while less than
`cooldown` has passed since the last restart; (3) when the count of recorded
timestamps inside the window has reached `maxRestarts`, the call is rejected
while less than `2*window` has passed since the last restart. -/
theorem restartCaptureIfStale_window_bound
    (cooldown window maxRestarts : Int)
    (hc : 0 < cooldown) (hw : 0 < window) (hm : 1 ≤ maxRestarts) :
    (∀ (ts : List Int), ts.Chain' (· ≤ ·) → ∀ lo : Int,
        (((policyRestarts cooldown window maxRestarts ts).filter
            fun t => decide (lo ≤ t ∧ t ≤ lo + window)).length : Int) ≤ maxRestarts) ∧
    (∀ (s : RestartState) (now L : Int), s.lastRestart = some L →
        now - L < cooldown →
        (restartStep cooldown window maxRestarts s now).2 = false) ∧
    (∀ (s : RestartState) (now L : Int), s.lastRestart = some L →
        ¬ (now - L < cooldown) →
        maxRestarts ≤ countRecent window s.events now →
        now - L < 2 * window →
        (restartStep cooldown window maxRestarts s now).2 = false) := by
  refine ⟨?_, ?_, ?_⟩
  · intro ts hchain lo
    have hsafe : WindowSafe window maxRestarts (policyRestarts cooldown window maxRestarts ts) := by
      cases ts with
      | nil =>
          simpa [policyRestarts, runRestarts] using
            (@windowSafe_nil window maxRestarts)
      | cons t0 rest =>
          have hpw : (t0 :: rest).Pairwise (· ≤ ·) := List.chain'_iff_pairwise.mp hchain
          have hInv0 : RestartInv window initRestartState [] t0 :=
            ⟨List.Pairwise.nil, by simp [initRestartState, lastBound], by intro e he; cases he⟩
          have hall : ∀ t ∈ (t0 :: rest), t0 ≤ t := by
            intro t ht
            rcases List.mem_cons.mp ht with h | h
            · exact h ▸ le_rfl
            · exact (List.pairwise_cons.mp hpw).1 t h
          have := runRestarts_safe hc hw hm (t0 :: rest) initRestartState [] t0
            hInv0 windowSafe_nil hpw hall
          simpa [policyRestarts] using this
    exact windowSafe_count hw hm _ hsafe lo
  · intro s now L hL hcd
    unfold restartStep
    rw [if_pos (by simp [isWithin, hL, hcd])]
  · intro s now L hL hcd hcnt hext
    unfold restartStep
    rw [if_neg (by simp [isWithin, hL]; omega), if_pos hcnt,
      if_pos (by simp [isWithin, hL, hext])]

theorem restartCaptureIfStale_window_bound_witness :
    (0 : Int) < 1 ∧ (0 : Int) < 5 ∧ (1 : Int) ≤ 1 ∧
    ([0, 3, 20] : List Int).Chain' (· ≤ ·) ∧
    (((policyRestarts 1 5 1 [0, 3, 20]).filter
        fun t => decide ((0 : Int) ≤ t ∧ t ≤ 0 + 5)).length : Int) ≤ 1 :=
  ⟨by decide, by decide, by decide,
   by norm_num [List.chain'_cons, List.chain'_singleton],
   (restartCaptureIfStale_window_bound 1 5 1 (by decide) (by decide) (by decide)).1
     [0, 3, 20] (by norm_num [List.chain'_cons, List.chain'_singleton]) 0⟩

/-! ## Capture worker (`CaptureWorker`, capture.go / unnamed/part_005)

`SetFPS` clamps the requested target; the framing loop of
`tryFFmpegCapture` applies the target by time-based decimation, re-reading
`targetFPS` at the top of each iteration (part_005, second document).
-/

/-- `CaptureWorker.SetFPS`: raise to 5 if below, then cap at the worker's
`captureFPS`; the result is stored in `targetFPS`. -/
def setFPS (captureFPS fps : Int) : Int :=
  let fps1 := if fps < 5 then 5 else fps
  let fps2 := if fps1 > captureFPS then captureFPS else fps1
  fps2

/-- Follows the spec's words for C4: `set_fps(target)` clamped to
`[max(5, min_dynamic_fps), configured_capture_fps]`. -/
def setFPSSpec (minDynamicFPS captureFPS target : Int) : Int :=
  min (max target (max 5 minDynamicFPS)) captureFPS

/-- C4 (counterexample) — with `min_dynamic_fps = 10`, `captureFPS = 15`
and target 7, the code stores 7 while the claimed clamp stores 10: `SetFPS`
never consults `min_dynamic_fps`. -/
theorem setFPS_ignores_min_dynamic_fps :
    setFPS 15 7 = 7 ∧ setFPSSpec 10 15 7 = 10 ∧ setFPS 15 7 ≠ setFPSSpec 10 15 7 := by
  refine ⟨by decide, by decide, by decide⟩

/-- C4 (amended) — the stored target equals the requested target raised to
5 and then capped at the worker's `captureFPS` (equivalently
`min (max target 5) captureFPS`); `min_dynamic_fps` plays no part. -/
theorem setFPS_clamps_to_five_and_capture (captureFPS fps : Int) :
    setFPS captureFPS fps = min (max fps 5) captureFPS := by
  unfold setFPS
  rcases le_or_lt 5 fps with h5 | h5 <;>
    rcases le_or_lt fps captureFPS with hcap | hcap <;>
      simp only [if_pos, if_neg, not_lt] <;> omega

/-- What one iteration of the framing loop reads from the stream:
a complete raw JPEG from `readMJPEGFrameRaw`, or an error (EOF or other). -/
inductive ReadEvent where
  | frame (jpegData : List Nat)
  | eofErr
  | otherErr

/-- Outcome of one framing-loop iteration, for observation. -/
inductive IterOutcome (α : Type) where
  | streamEnded
  | readError
  | skipped
  | decodeFailed
  | published (f : α)

/-- Mutable worker state touched by one iteration of the framing loop of
`tryFFmpegCapture` (part_005 second document): the atomic `targetFPS`, the
configured `settings.FPS` fallback, the local `lastProcessedTime`, the stat
counters and the worker's frame buffer. -/
structure CapState (α : Type) where
  targetFPS : Int
  settingsFPS : Int
  lastProcessedTime : Int
  skippedFrames : Nat
  frameCount : Nat
  errorCount : Nat
  lastFrameTime : Int
  buffer : FrameBuffer α

/-- One iteration of the framing loop (`for cw.running.Load()` body,
default `select` branch), with `running` true and no stop signal.
`decode` stands for `jpeg.Decode` (nil result = `none`); `now` is the
`time.Now()` of the decimation check, `nowStat` the stamp stored into
`lastFrameTime`, `nowPub` the stamp taken inside `FrameBuffer.Write`.
The target FPS is re-read from the state at the top of the iteration. -/
def captureIter {α : Type} (decode : List Nat → Option α) (s : CapState α)
    (ev : ReadEvent) (now nowStat nowPub : Int) : CapState α × IterOutcome α :=
  let targetFPS := if s.targetFPS ≤ 0 then s.settingsFPS else s.targetFPS
  let minFrameInterval := 1000000000 / targetFPS
  match ev with
  | .eofErr => (s, .streamEnded)
  | .otherErr => ({ s with errorCount := s.errorCount + 1 }, .readError)
  | .frame jpegData =>
      let elapsed := now - s.lastProcessedTime
      if elapsed < minFrameInterval then
        ({ s with skippedFrames := s.skippedFrames + 1 }, .skipped)
      else
        match decode jpegData with
        | none =>
            ({ s with lastProcessedTime := now, errorCount := s.errorCount + 1 },
              .decodeFailed)
        | some f =>
            ({ s with
                lastProcessedTime := now
                frameCount := s.frameCount + 1
                lastFrameTime := nowStat
                buffer := s.buffer.Write f nowPub },
              .published f)

/-- C5 — time-based decimation of the framing loop.  Writing
`eff s = if s.targetFPS ≤ 0 then s.settingsFPS else s.targetFPS` (the target
re-read at the top of the iteration): (1) when less than
`1 s / eff s` has elapsed since the last admitted frame, the JPEG is
discarded — only the skipped counter changes, and the result does not
depend on the decoder at all; (2) otherwise the frame is decoded and, on
success, published into the surface with the counters updated; (3) a
freshly stored positive target is the one the next iteration uses. -/
theorem captureIter_decimation {α : Type} (decode : List Nat → Option α)
    (s : CapState α) (jpegData : List Nat) (now nowStat nowPub : Int) :
    (now - s.lastProcessedTime <
        1000000000 / (if s.targetFPS ≤ 0 then s.settingsFPS else s.targetFPS) →
      captureIter decode s (.frame jpegData) now nowStat nowPub =
        ({ s with skippedFrames := s.skippedFrames + 1 }, .skipped) ∧
      ∀ decode2 : List Nat → Option α,
        captureIter decode2 s (.frame jpegData) now nowStat nowPub =
          captureIter decode s (.frame jpegData) now nowStat nowPub) ∧
    (¬ (now - s.lastProcessedTime <
        1000000000 / (if s.targetFPS ≤ 0 then s.settingsFPS else s.targetFPS)) →
      ∀ f : α, decode jpegData = some f →
        captureIter decode s (.frame jpegData) now nowStat nowPub =
          ({ s with
              lastProcessedTime := now
              frameCount := s.frameCount + 1
              lastFrameTime := nowStat
              buffer := s.buffer.Write f nowPub }, .published f)) ∧
    (∀ t : Int, 0 < t →
      now - s.lastProcessedTime < 1000000000 / t →
      captureIter decode { s with targetFPS := t } (.frame jpegData) now nowStat nowPub =
        ({ s with targetFPS := t, skippedFrames := s.skippedFrames + 1 }, .skipped)) := by
  refine ⟨?_, ?_, ?_⟩
  · intro h
    constructor
    · simp only [captureIter, if_pos h]
    · intro decode2
      simp only [captureIter, if_pos h]
  · intro h f hf
    simp only [captureIter, if_neg h, hf]
  · intro t ht h
    have hts : ¬ (t ≤ 0) := by omega
    simp only [captureIter, if_neg hts, if_pos h]

theorem captureIter_decimation_witness :
    (captureIter (fun _ => some (7 : Nat))
        ⟨10, 15, 0, 0, 0, 0, 0, newFrameBuffer Nat 0⟩ (.frame [1]) 5 6 7 =
      (⟨10, 15, 0, 1, 0, 0, 0, newFrameBuffer Nat 0⟩, .skipped)) ∧
    (captureIter (fun _ => some (7 : Nat))
        ⟨10, 15, 0, 0, 0, 0, 0, newFrameBuffer Nat 0⟩
        (.frame [1]) 100000000 6 7 =
      (⟨10, 15, 100000000, 0, 1, 0, 6, (newFrameBuffer Nat 0).Write 7 7⟩,
        .published 7)) :=
  ⟨((captureIter_decimation (fun _ => some (7 : Nat))
      ⟨10, 15, 0, 0, 0, 0, 0, newFrameBuffer Nat 0⟩ [1] 5 6 7).1 (by decide)).1,
   (captureIter_decimation (fun _ => some (7 : Nat))
      ⟨10, 15, 0, 0, 0, 0, 0, newFrameBuffer Nat 0⟩ [1] 100000000 6 7).2.1
     (by decide) 7 rfl⟩

/-! ## Framing routine, EOI phase (`readMJPEGFrameRaw`, capture.go)

After the SOI marker is locked in, the routine loops: check the frame
timeout, scan `frameData` for an EOI marker (`0xFF 0xD9`) once more than 10
bytes are buffered, otherwise read another chunk, append it and reset the
buffer with an `io.EOF` result when it grows past 200000 bytes.  Bytes are
`Nat`s; the reads and the per-iteration timeout checks are an oracle
sequence, one `(timeout-expired?, read-result)` pair per iteration. -/

/-- Result of one `reader.Read` in the EOI loop. -/
inductive ReadRes where
  | ok (bytes : List Nat)
  | fail

/-- Result of the EOI phase, paired with the final `frameData`. -/
inductive EOIOut where
  | frame (jpegData : List Nat)
  | timeoutErr
  | readErr
  | eofOverflow
  | starved
  deriving DecidableEq

/-- The inner scan `for i := 1; i < len; i++`: index of the first byte `i`
with `data[i-1] = 0xFF` and `data[i] = 0xD9`. -/
def findEOIPair : List Nat → Option Nat
  | a :: b :: rest =>
      if a = 0xFF ∧ b = 0xD9 then some 1
      else (findEOIPair (b :: rest)).map (· + 1)
  | _ => none

/-- The guarded scan: only performed when more than 10 bytes are buffered. -/
def findEOI (frameData : List Nat) : Option Nat :=
  if frameData.length > 10 then findEOIPair frameData else none

/-- The EOI loop of `readMJPEGFrameRaw`.  Each iteration consumes one
oracle pair: whether `time.Since(frameStart) > frameTimeout` fired at the
top, and what the subsequent `reader.Read` would return.  On a found EOI
the inclusive slice is returned and the remainder kept; on overflow past
200000 bytes the buffer is reset and an EOF-like result returned. -/
def eoiLoop (frameData : List Nat) : List (Bool × ReadRes) → EOIOut × List Nat
  | [] => (.starved, frameData)
  | (expired, rd) :: rest =>
      if expired then (.timeoutErr, [])
      else
        match findEOI frameData with
        | some i => (.frame (frameData.take (i + 1)), frameData.drop (i + 1))
        | none =>
            match rd with
            | .fail => (.readErr, frameData)
            | .ok bytes =>
                let frameData' := frameData ++ bytes
                if frameData'.length > 200000 then (.eofOverflow, [])
                else eoiLoop frameData' rest

lemma findEOIPair_all_small (l : List Nat) (h : ∀ x ∈ l, x = 0) :
    findEOIPair l = none := by
  induction l with
  | nil => rfl
  | cons a tl ih =>
      cases tl with
      | nil => rfl
      | cons b r =>
          have ha : a = 0 := h a (List.mem_cons_self _ _)
          have hb : b = 0 := h b (List.mem_cons_of_mem _ (List.mem_cons_self _ _))
          have hcond : ¬ (a = 0xFF ∧ b = 0xD9) := by
            intro hc
            rw [ha] at hc
            exact absurd hc.1 (by decide)
          rw [findEOIPair, if_neg hcond,
            ih (fun x hx => h x (List.mem_cons_of_mem _ hx))]
          rfl

/-- C7 — whenever the accumulated frame buffer exceeds the size cap without
an EOI marker having been found — stated both at the claim's 200 KiB
threshold and at the code's exact 200000-byte threshold — the buffer is
reset to empty and the routine returns the EOF result instead of a frame. -/
theorem eoiLoop_overflow_eof (frameData bytes : List Nat)
    (rest : List (Bool × ReadRes)) (hEOI : findEOI frameData = none) :
    ((frameData ++ bytes).length > 200 * 1024 →
      eoiLoop frameData ((false, .ok bytes) :: rest) = (.eofOverflow, [])) ∧
    ((frameData ++ bytes).length > 200000 →
      eoiLoop frameData ((false, .ok bytes) :: rest) = (.eofOverflow, [])) := by
  have hbase : (frameData ++ bytes).length > 200000 →
      eoiLoop frameData ((false, .ok bytes) :: rest) = (.eofOverflow, []) := by
    intro hlen
    simp only [eoiLoop, if_neg (by decide : ¬ (false = true)), hEOI, if_pos hlen]
  exact ⟨fun h => hbase (by omega), hbase⟩

theorem eoiLoop_overflow_eof_witness :
    findEOI (List.replicate 204800 0) = none ∧
    ((List.replicate 204800 0 ++ [0, 0]).length > 200 * 1024) ∧
    eoiLoop (List.replicate 204800 0) [(false, .ok [0, 0])] = (.eofOverflow, []) := by
  have h1 : findEOI (List.replicate 204800 (0 : Nat)) = none := by
    unfold findEOI
    rw [if_pos (by rw [List.length_replicate]; omega), findEOIPair_all_small]
    intro x hx
    exact List.eq_of_mem_replicate hx
  have h2 : (List.replicate 204800 (0 : Nat) ++ [0, 0]).length > 200 * 1024 := by
    rw [List.length_append, List.length_replicate]
    norm_num
  exact ⟨h1, h2,
    (eoiLoop_overflow_eof (List.replicate 204800 0) [0, 0] [] h1).1 h2⟩

/-! ## Adaptive performance controller (`SmartController`, adaptive.go)

`float64` temperatures, loads and trends are `ℚ`; times are `Int`
nanoseconds.  A tick receives the freshly sampled temperature and load
(the monitor's cached values) and the current `time.Now()`. -/

/-- Controller states (`StateProbing` …). -/
inductive CtrlState where
  | probing
  | stable
  | recovering
  | emergency
  deriving DecidableEq

/-- `time.Second` in nanoseconds. -/
def nsPerSec : Int := 1000000000

/-- Thermal thresholds (`TempIdeal` … `TempCritical`), in °C. -/
def tempIdeal : ℚ := 72
def tempComfort : ℚ := 78
def tempWarm : ℚ := 82
def tempHot : ℚ := 84
def tempCritical : ℚ := 86

/-- Load thresholds (`LoadIdeal`, `LoadHigh`). -/
def loadIdeal : ℚ := 25 / 10
def loadHigh : ℚ := 38 / 10

/-- Mutable `SmartController` state and the configuration it consults. -/
structure SmartCtrl where
  currentFPS : Int
  sweetSpotFPS : Int
  minFPS : Int
  maxFPS : Int
  dynamicEnabled : Bool
  state : CtrlState
  stateEnterTime : Int
  stabilityCount : Int
  lastChange : Int
  stressCount : Int
  recoverCount : Int
  tempHistory : List ℚ
  tempTrend : ℚ
  stableSeconds : Int
  adjustCount : Int
  cpuLoadThreshold : ℚ
  cpuTempThresholdC : ℚ
  uiFPSStep : Int
  stressHoldCount : Int
  recoverHoldCount : Int

/-- `updateTempTrend`: append the sample, keep the last 10, and with at
least 3 samples set the trend to `(latest − earliest) / n`. -/
def updateTempTrend (sc : SmartCtrl) (temp : ℚ) : SmartCtrl :=
  let h1 := sc.tempHistory ++ [temp]
  let h2 := if h1.length > 10 then h1.drop 1 else h1
  let trend :=
    if h2.length ≥ 3 then (h2.getLastD 0 - h2.headI) / (h2.length : ℚ)
    else sc.tempTrend
  { sc with tempHistory := h2, tempTrend := trend }

/-- `applyFPS`: set the FPS without further bookkeeping (fans out to the
workers via `Manager.SetFPS`, which is outside this state). -/
def applyFPS (sc : SmartCtrl) (fps : Int) : SmartCtrl :=
  { sc with currentFPS := fps }

/-- `changeFPS`: clamp to `[minFPS, maxFPS]`; if unchanged do nothing, else
apply and stamp `lastChange`, resetting the stability counter. -/
def changeFPS (sc : SmartCtrl) (fps : Int) (now : Int) : SmartCtrl :=
  let fps1 := if fps < sc.minFPS then sc.minFPS else fps
  let fps2 := if fps1 > sc.maxFPS then sc.maxFPS else fps1
  if fps2 = sc.currentFPS then sc
  else
    { sc with
      currentFPS := fps2
      lastChange := now
      stabilityCount := 0
      adjustCount := sc.adjustCount + 1 }

/-- `enterState`: record the transition, zero the counters, apply the
minimum FPS when entering Emergency, reset the stable timer when entering
Stable. -/
def enterState (sc : SmartCtrl) (st : CtrlState) (now : Int) : SmartCtrl :=
  let sc1 := { sc with
    state := st
    stateEnterTime := now
    stabilityCount := 0
    stressCount := 0
    recoverCount := 0 }
  let sc2 := if st = .emergency then applyFPS sc1 sc1.minFPS else sc1
  if st = .stable then { sc2 with stableSeconds := 0 } else sc2

/-- `handleEmergency`: re-apply the minimum FPS if it drifted, then leave
for Recovering once cooled (`temp < TempWarm`, non-positive trend, more
than 10 s in state). -/
def handleEmergency (sc : SmartCtrl) (temp : ℚ) (now : Int) : SmartCtrl :=
  let sc1 := if sc.currentFPS ≠ sc.minFPS then applyFPS sc sc.minFPS else sc
  if temp < tempWarm ∧ sc1.tempTrend ≤ 0 ∧ now - sc1.stateEnterTime > 10 * nsPerSec then
    enterState sc1 .recovering now
  else sc1

/-- `handleProbing`: search for the highest sustainable FPS. -/
def handleProbing (sc : SmartCtrl) (temp load : ℚ) (now : Int) : SmartCtrl :=
  let timeSinceChange := now - sc.lastChange
  if temp ≥ tempCritical then enterState sc .emergency now
  else
    let isUnderStress := temp ≥ sc.cpuTempThresholdC ∨ load ≥ sc.cpuLoadThreshold
    let isLoadOK := load < loadHigh
    let isSustainable := temp < tempWarm ∨ (temp < tempHot ∧ sc.tempTrend ≤ 0)
    if isSustainable ∧ isLoadOK ∧ ¬ isUnderStress then
      let sc1 := { sc with stabilityCount := sc.stabilityCount + 1, stressCount := 0 }
      if sc1.stabilityCount ≥ 8 then
        let sc2 :=
          if sc1.currentFPS > sc1.sweetSpotFPS then
            { sc1 with sweetSpotFPS := sc1.currentFPS }
          else sc1
        if sc2.stabilityCount ≥ 12 then enterState sc2 .stable now
        else if sc2.currentFPS < sc2.maxFPS ∧ temp < tempComfort ∧
            sc2.tempTrend < 0 ∧ timeSinceChange > 15 * nsPerSec then
          changeFPS sc2 (sc2.currentFPS + sc2.uiFPSStep) now
        else sc2
      else sc1
    else
      let sc1 := { sc with stabilityCount := 0, stressCount := sc.stressCount + 1 }
      if sc1.stressCount ≥ sc1.stressHoldCount then
        let shouldReduce := temp ≥ tempHot ∨
          (temp ≥ tempWarm ∧ sc1.tempTrend > 3 / 10) ∨ load ≥ loadHigh
        if shouldReduce ∧ timeSinceChange > 5 * nsPerSec then
          let newFPS :=
            if sc1.currentFPS - 3 < sc1.minFPS then sc1.minFPS else sc1.currentFPS - 3
          let sc2 := changeFPS sc1 newFPS now
          let sc3 :=
            if newFPS < sc2.sweetSpotFPS then { sc2 with sweetSpotFPS := newFPS } else sc2
          { sc3 with stressCount := 0 }
        else sc1
      else sc1

/-- `handleStable`: hold the sweet spot, reduce under sustained stress,
probe upward under excellent conditions. -/
def handleStable (sc : SmartCtrl) (temp load : ℚ) (now : Int) : SmartCtrl :=
  let sc0 := { sc with stableSeconds := sc.stableSeconds + 1 }
  if temp ≥ tempCritical then enterState sc0 .emergency now
  else
    let isUnderStress := temp ≥ sc0.cpuTempThresholdC ∨ load ≥ sc0.cpuLoadThreshold
    let needReduce := temp ≥ tempHot ∨ (temp ≥ tempWarm ∧ sc0.tempTrend > 1 / 2) ∨
      load ≥ loadHigh ∨ isUnderStress
    if needReduce then
      let sc1 := { sc0 with stressCount := sc0.stressCount + 1 }
      if sc1.stressCount ≥ sc1.stressHoldCount then
        let newFPS :=
          if sc1.currentFPS - sc1.uiFPSStep < sc1.minFPS then sc1.minFPS
          else sc1.currentFPS - sc1.uiFPSStep
        let sc2 := changeFPS sc1 newFPS now
        let sc3 :=
          if newFPS < sc2.sweetSpotFPS then { sc2 with sweetSpotFPS := newFPS } else sc2
        { sc3 with stressCount := 0 }
      else tryHigher sc1 temp load now
    else
      let sc1 := { sc0 with stressCount := 0, recoverCount := sc0.recoverCount + 1 }
      tryHigher sc1 temp load now
where
  /-- The trailing "conditions excellent — try higher" check of
  `handleStable`. -/
  tryHigher (sc : SmartCtrl) (temp load : ℚ) (now : Int) : SmartCtrl :=
    if sc.stableSeconds > 30 ∧ sc.currentFPS < sc.maxFPS ∧ temp < tempIdeal ∧
        sc.tempTrend < 0 ∧ load < loadIdeal ∧ sc.recoverCount ≥ sc.recoverHoldCount then
      let sc1 := changeFPS sc (sc.currentFPS + sc.uiFPSStep) now
      { sc1 with stableSeconds := 0, recoverCount := 0 }
    else sc

/-- `handleRecovering`: wait out the heat, then step back toward the sweet
spot and enter Stable when it is reached. -/
def handleRecovering (sc : SmartCtrl) (temp : ℚ) (now : Int) : SmartCtrl :=
  if temp ≥ tempHot then
    if temp ≥ tempCritical then enterState sc .emergency now else sc
  else if temp < tempComfort ∧ sc.tempTrend ≤ 0 ∧
      now - sc.lastChange > 5 * nsPerSec then
    let sc1 := { sc with recoverCount := sc.recoverCount + 1 }
    if sc1.recoverCount ≥ sc1.recoverHoldCount then
      if sc1.currentFPS < sc1.sweetSpotFPS then
        { changeFPS sc1 (sc1.currentFPS + sc1.uiFPSStep) now with recoverCount := 0 }
      else enterState sc1 .stable now
    else sc1
  else { sc with recoverCount := 0 }

/-- `tick` (after a successful `monitor.UpdateStats`): update the trend and
dispatch on the mode and state. -/
def tick (sc : SmartCtrl) (temp load : ℚ) (now : Int) : SmartCtrl :=
  let sc := updateTempTrend sc temp
  if sc.dynamicEnabled = false then
    let sc1 := if sc.state ≠ .stable then { sc with state := .stable } else sc
    { sc1 with stableSeconds := sc1.stableSeconds + 1 }
  else
    match sc.state with
    | .probing => handleProbing sc temp load now
    | .stable => handleStable sc temp load now
    | .recovering => handleRecovering sc temp now
    | .emergency => handleEmergency sc temp now

lemma handleEmergency_currentFPS (sc : SmartCtrl) (temp : ℚ) (now : Int) :
    (handleEmergency sc temp now).currentFPS = sc.minFPS := by
  unfold handleEmergency enterState applyFPS
  split_ifs <;> simp_all [apply_ite (fun c : SmartCtrl => c.currentFPS)]

lemma tick_emergency (sc : SmartCtrl) (temp load : ℚ) (now : Int)
    (hdyn : sc.dynamicEnabled = true) (hst : sc.state = CtrlState.emergency) :
    tick sc temp load now = handleEmergency (updateTempTrend sc temp) temp now := by
  have hdyn2 : (updateTempTrend sc temp).dynamicEnabled = true := hdyn
  have hst2 : (updateTempTrend sc temp).state = CtrlState.emergency := hst
  unfold tick
  rw [if_neg (by rw [hdyn2]; simp), hst2]

/-- C6 — while in Emergency (dynamic mode), every tick leaves the current
FPS equal to the minimum FPS, and entering Emergency applies the minimum
FPS. -/
theorem emergency_tick_min_fps (sc : SmartCtrl) (temp load : ℚ) (now : Int)
    (hdyn : sc.dynamicEnabled = true) (hst : sc.state = CtrlState.emergency) :
    (tick sc temp load now).currentFPS = sc.minFPS ∧
    (∀ (sc' : SmartCtrl) (now' : Int),
      (enterState sc' .emergency now').currentFPS = sc'.minFPS) := by
  constructor
  · rw [tick_emergency sc temp load now hdyn hst]
    exact handleEmergency_currentFPS (updateTempTrend sc temp) temp now
  · intro sc' now'
    simp [enterState, applyFPS]

theorem emergency_tick_min_fps_witness :
    (tick
      { currentFPS := 12, sweetSpotFPS := 15, minFPS := 10, maxFPS := 20
        dynamicEnabled := true, state := .emergency, stateEnterTime := 0
        stabilityCount := 0, lastChange := 0, stressCount := 0, recoverCount := 0
        tempHistory := [], tempTrend := 0, stableSeconds := 0, adjustCount := 0
        cpuLoadThreshold := 7 / 2, cpuTempThresholdC := 80, uiFPSStep := 2
        stressHoldCount := 3, recoverHoldCount := 3 }
      85 1 (5 * nsPerSec)).currentFPS = 10 :=
  (emergency_tick_min_fps
    { currentFPS := 12, sweetSpotFPS := 15, minFPS := 10, maxFPS := 20
      dynamicEnabled := true, state := .emergency, stateEnterTime := 0
      stabilityCount := 0, lastChange := 0, stressCount := 0, recoverCount := 0
      tempHistory := [], tempTrend := 0, stableSeconds := 0, adjustCount := 0
      cpuLoadThreshold := 7 / 2, cpuTempThresholdC := 80, uiFPSStep := 2
      stressHoldCount := 3, recoverHoldCount := 3 }
    85 1 (5 * nsPerSec) rfl rfl).1

/-! ## Capability probe (`queryCameraCapabilities` / `getOptimalFPS`,
unnamed/part_007 second document)

The probe walks the `v4l2-ctl --list-formats-ext` output line by line,
tracking whether it is inside the MJPEG section.  One line is abstracted to
what the code's dispatch sees: an MJPEG section header (`'MJPG'` /
`Motion-JPEG`), another format header (`'YUYV'` / `'H264'`), a
`Size: Discrete WxH` match, an `N.M fps` match, or anything else. -/

inductive FmtLine where
  | mjpegHeader
  | otherHeader
  | sizeLine (w h : Int)
  | fpsLine (fps : Int)
  | noise

/-- Scan state of the parsing loop: the `inMJPEG` flag, the running
`caps.MaxFPS`, and the collected MJPEG frame sizes. -/
structure ScanState where
  inMJPEG : Bool
  maxFPS : Int
  sizes : List (Int × Int)

/-- One line of the parsing loop of `queryCameraCapabilities`. -/
def scanLine (st : ScanState) (l : FmtLine) : ScanState :=
  match l with
  | .mjpegHeader => { st with inMJPEG := true }
  | .otherHeader => { st with inMJPEG := false }
  | .sizeLine w h =>
      if st.inMJPEG then { st with sizes := st.sizes ++ [(w, h)] } else st
  | .fpsLine f =>
      if st.inMJPEG then
        if f > st.maxFPS then { st with maxFPS := f } else st
      else st
  | .noise => st

/-- `getOptimalFPS`: return the configured FPS unless the camera's maximum
is lower. -/
def getOptimalFPS (cameraMaxFPS cfgFPS : Int) : Int :=
  if cfgFPS ≤ cameraMaxFPS then cfgFPS else cameraMaxFPS

/-- The `MaxFPS` computation of `queryCameraCapabilities` for a listing that
parses: `caps.MaxFPS` starts at the configured `CameraFPS`, is raised by
every higher FPS seen inside the MJPEG section, and is finally passed
through `getOptimalFPS`. -/
def queryMaxFPS (cfgFPS : Int) (lines : List FmtLine) : Int :=
  let st := lines.foldl scanLine { inMJPEG := false, maxFPS := cfgFPS, sizes := [] }
  getOptimalFPS st.maxFPS cfgFPS

/-- The FPS values enumerated inside MJPEG sections of the listing. -/
def enumeratedMJPEGFPS (lines : List FmtLine) : List Int :=
  (lines.foldl
    (fun (acc : Bool × List Int) l =>
      match l with
      | .mjpegHeader => (true, acc.2)
      | .otherHeader => (false, acc.2)
      | .fpsLine f => if acc.1 then (acc.1, acc.2 ++ [f]) else acc
      | _ => acc)
    (false, [])).2

/-- Follows the spec's words for C8: the probe's maximum FPS is the highest
FPS enumerated in the MJPEG section, capped by the configured
`capture_fps` (undefined when nothing is enumerated). -/
def specMaxFPS (cfgFPS : Int) (lines : List FmtLine) : Option Int :=
  match enumeratedMJPEGFPS lines with
  | [] => none
  | f :: fs => some (min (fs.foldl max f) cfgFPS)

lemma scanLine_maxFPS_le (st : ScanState) (l : FmtLine) :
    st.maxFPS ≤ (scanLine st l).maxFPS := by
  cases l with
  | mjpegHeader => exact le_rfl
  | otherHeader => exact le_rfl
  | sizeLine w h =>
      simp only [scanLine]
      split_ifs <;> exact le_rfl
  | fpsLine f =>
      simp only [scanLine]
      split_ifs with h1 h2
      · exact le_of_lt h2
      · exact le_rfl
      · exact le_rfl
  | noise => exact le_rfl

lemma foldl_scanLine_maxFPS_le (lines : List FmtLine) :
    ∀ st : ScanState, st.maxFPS ≤ (lines.foldl scanLine st).maxFPS := by
  induction lines with
  | nil => intro st; exact le_rfl
  | cons l rest ih =>
      intro st
      exact le_trans (scanLine_maxFPS_le st l) (ih (scanLine st l))

/-- C8 — the probe never returns less than the configured FPS: because
`caps.MaxFPS` is initialised to the configured `CameraFPS` before the scan,
`getOptimalFPS` always returns the configured value, for every parsed
listing.  In particular, for a camera whose MJPEG section enumerates only
10 fps under a configured 15 fps, the code yields 15 while the documented
behaviour ("caps at camera's max FPS if camera doesn't support the
configured value") and the spec yield 10. -/
theorem queryMaxFPS_ignores_enumerated_rates :
    (∀ (cfgFPS : Int) (lines : List FmtLine), queryMaxFPS cfgFPS lines = cfgFPS) ∧
    queryMaxFPS 15 [.mjpegHeader, .sizeLine 640 480, .fpsLine 10] = 15 ∧
    specMaxFPS 15 [.mjpegHeader, .sizeLine 640 480, .fpsLine 10] = some 10 := by
  refine ⟨?_, by decide, by decide⟩
  intro cfgFPS lines
  unfold queryMaxFPS getOptimalFPS
  rw [if_pos]
  exact foldl_scanLine_maxFPS_le lines _

/-! ## Device-holder eviction (`KillDeviceHoldersWithGrace`,
kill_device_holders.go)

The PID sets returned by `lsof -t` (primary) and `fuser -v` (fallback) and
the caller's own PID are inputs; the second component of the result is the
set of PIDs that get signalled (SIGTERM, then SIGKILL for survivors). -/

/-- `KillDeviceHoldersWithGrace`: no-op when disabled; otherwise take the
lsof holders, fall back to fuser when empty, drop the caller's own PID, and
report whether anything was signalled. -/
def killDeviceHolders (enabled : Bool) (lsofPids fuserPids : Finset Int)
    (myPid : Int) : Bool × Finset Int :=
  if enabled = false then (false, ∅)
  else
    let pids0 := if lsofPids = ∅ then fuserPids else lsofPids
    let pids := pids0.erase myPid
    if pids = ∅ then (false, ∅) else (true, pids)

/-- C9 — with `enabled = false` the eviction returns `false` and signals
nothing; with `enabled = true` it returns `true` exactly when the holder
set (lsof, falling back to fuser, minus the caller's own PID) is non-empty,
which is exactly when some process is signalled. -/
theorem killDeviceHolders_gate (lsofPids fuserPids : Finset Int) (myPid : Int) :
    killDeviceHolders false lsofPids fuserPids myPid = (false, ∅) ∧
    ((killDeviceHolders true lsofPids fuserPids myPid).1 = true ↔
      ((if lsofPids = ∅ then fuserPids else lsofPids).erase myPid) ≠ ∅) ∧
    ((killDeviceHolders true lsofPids fuserPids myPid).1 = true ↔
      (killDeviceHolders true lsofPids fuserPids myPid).2 ≠ ∅) := by
  refine ⟨rfl, ?_, ?_⟩ <;>
  · simp only [killDeviceHolders]
    rw [if_neg (by simp)]
    split_ifs <;> simp_all

end CamDash
